import Mathlib

/-!
Verification of `src/test-server/server.js` (envoy-lb-client test fixture).

The file embeds the server's two utility functions (`formatTimestamp`,
`generateRandomString`), the `POST /` handler, the fastify/listen options and
the `start` bootstrap as Lean definitions, and proves the spec's claims about
them.  JavaScript strings are modelled as `String`/`List Char`, the
cryptographically random byte source `crypto.randomBytes(1024)` as an infinite
stream of 1024-byte chunks, header maps as `String → Option String` (with JS
truthiness made explicit), and the process side effects (log lines, exit code)
as record fields.
-/

namespace TestServer

/-- A byte, as produced by `crypto.randomBytes`. -/
abbrev Byte := Fin 256

/-- One draw of `crypto.randomBytes(1024)`: a list of exactly 1024 bytes. -/
abbrev Chunk := {l : List Byte // l.length = 1024}

/-- A random byte source: the `i`-th call to `crypto.randomBytes(1024)`
inside one `generateRandomString` invocation returns `stream i`. -/
abbrev ByteStream := Nat → Chunk

/-- The RFC 4648 base64 alphabet, as used by Node's
`Buffer.prototype.toString('base64')`. -/
def base64Chars : List Char :=
  ['A', 'B', 'C', 'D', 'E', 'F', 'G', 'H', 'I', 'J', 'K', 'L', 'M',
   'N', 'O', 'P', 'Q', 'R', 'S', 'T', 'U', 'V', 'W', 'X', 'Y', 'Z',
   'a', 'b', 'c', 'd', 'e', 'f', 'g', 'h', 'i', 'j', 'k', 'l', 'm',
   'n', 'o', 'p', 'q', 'r', 's', 't', 'u', 'v', 'w', 'x', 'y', 'z',
   '0', '1', '2', '3', '4', '5', '6', '7', '8', '9', '+', '/']

/-- The base64 digit for a 6-bit value. -/
def b64Char (n : Nat) : Char := base64Chars.getD n 'A'

/-- Standard base64 with `'='` padding (RFC 4648), i.e. the semantics of
`buf.toString('base64')` in Node: three input bytes become four alphabet
characters; a final group of one or two bytes is padded with `'=='` or `'='`. -/
def base64Encode : List Byte → List Char
  | [] => []
  | [a] =>
      [b64Char (a.val / 4), b64Char (a.val % 4 * 16), '=', '=']
  | [a, b] =>
      [b64Char (a.val / 4), b64Char (a.val % 4 * 16 + b.val / 16),
       b64Char (b.val % 16 * 4), '=']
  | a :: b :: c :: rest =>
      b64Char (a.val / 4) :: b64Char (a.val % 4 * 16 + b.val / 16) ::
      b64Char (b.val % 16 * 4 + c.val / 64) :: b64Char (c.val % 64) ::
      base64Encode rest

/-- The `while` loop of `generateRandomString`: while `result.length <
sizeInBytes`, append `crypto.randomBytes(1024).toString('base64')` (the `i`-th
chunk of the stream) to `result`. -/
def generateRandomStringLoop (stream : ByteStream) (sizeInBytes : Int)
    (i : Nat) (result : List Char) : List Char :=
  if (result.length : Int) < sizeInBytes then
    generateRandomStringLoop stream sizeInBytes (i + 1)
      (result ++ base64Encode (stream i).val)
  else
    result
termination_by (sizeInBytes - result.length).toNat
decreasing_by
  have hlen : (base64Encode (stream i).val).length
      = 4 * (((stream i).val.length + 2) / 3) := by
    induction (stream i).val using base64Encode.induct with
    | case1 => simp [base64Encode]
    | case2 a => simp [base64Encode]
    | case3 a b => simp [base64Encode]
    | case4 a b c rest ih =>
        simp only [base64Encode, List.length_cons, ih]
        omega
  rw [(stream i).property] at hlen
  simp only [List.length_append, hlen]
  omega

/-- `generateRandomString(sizeInKB)` from `server.js`: convert KB to bytes,
accumulate base64-encoded 1024-byte random chunks until the accumulator
reaches the byte count, then `substring(0, sizeInBytes)` (JS `substring`
clamps a negative end index to 0, hence `Int.toNat`). -/
def generateRandomString (stream : ByteStream) (sizeInKB : Int) : List Char :=
  let sizeInBytes : Int := sizeInKB * 1024
  (generateRandomStringLoop stream sizeInBytes 0 []).take sizeInBytes.toNat

/-- The number of loop iterations `generateRandomString` performs for a byte
target `t`: the least `k` with `1368 * k ≥ t`. -/
def numChunks (t : Int) : Nat := (t.toNat + 1367) / 1368

/-- JS `String.prototype.padStart(targetLength, padString)` with a one-char
pad string: left-pad with `c` up to length `n`; a string already at least
`n` long is returned unchanged. -/
def padStart (s : String) (n : Nat) (c : Char) : String :=
  String.mk (List.replicate (n - s.length) c) ++ s

/-- Decimal digits of `n`, most significant first (empty for 0); the fuel
argument only drives structural recursion and is in excess of the digit
count whenever it exceeds `n`. -/
def natToDigitsAux : Nat → Nat → List Char
  | 0, _ => []
  | fuel + 1, n =>
      if n = 0 then [] else natToDigitsAux fuel (n / 10) ++ [Nat.digitChar (n % 10)]

/-- JS `Number.prototype.toString()` restricted to naturals: decimal
rendering, `"0"` for zero. -/
def jsNatToString (n : Nat) : String :=
  if n = 0 then "0" else String.mk (natToDigitsAux (n + 1) n)

/-- Reads a list of decimal digit characters back as a number (used to state
that a zero-padded field still denotes its source value). -/
def decodeDigits (l : List Char) : Nat :=
  l.foldl (fun a c => a * 10 + (c.toNat - 48)) 0

/-- The fields of `new Date()` that `formatTimestamp` consults
(`getHours`, `getMinutes`, `getSeconds`, `getMilliseconds`). -/
structure DateTime where
  hours : Nat
  minutes : Nat
  seconds : Nat
  milliseconds : Nat

/-- `formatTimestamp` from `server.js`: hours/minutes/seconds padded with
`padStart(2, '0')`, the millisecond value padded with `padStart(6, '0')`,
laid out as a bracketed `H:M:S.ms` template literal. -/
def formatTimestamp (now : DateTime) : String :=
  let hours := padStart (jsNatToString now.hours) 2 '0'
  let minutes := padStart (jsNatToString now.minutes) 2 '0'
  let seconds := padStart (jsNatToString now.seconds) 2 '0'
  let milliseconds := padStart (jsNatToString now.milliseconds) 6 '0'
  "[" ++ hours ++ ":" ++ minutes ++ ":" ++ seconds ++ "." ++ milliseconds ++ "]"

/-- A request's header map: `headers name` is the header's value, `none` when
the header is absent.  Fastify exposes header names lowercased; the two names
the handler reads (`my_id`, `:scheme`) are already lowercase. -/
abbrev Headers := String → Option String

/-- JS `x || d` where `x` is a header lookup (a string or `undefined`):
`undefined` and the empty string are falsy, any other string is kept. -/
def jsOrDefault (x : Option String) (d : String) : String :=
  match x with
  | none => d
  | some s => if s = "" then d else s

/-- JS truthiness of a header lookup: present with a non-empty value. -/
def jsTruthy (x : Option String) : Bool :=
  match x with
  | none => false
  | some s => !(s == "")

/-- `const myId = request.headers['my_id'] || 'unknown'`. -/
def myIdOf (headers : Headers) : String :=
  jsOrDefault (headers "my_id") "unknown"

/-- `const protocol = request.headers[':scheme'] ? 'HTTP/2' : 'HTTP/1.1'`. -/
def protocolOf (headers : Headers) : String :=
  if jsTruthy (headers ":scheme") then "HTTP/2" else "HTTP/1.1"

/-- Modelled from the spec (section 4.2): a request "carries HTTP/2-style
pseudo-headers" when the `:scheme` pseudo-header is present; HTTP/2 requires
every pseudo-header to carry a non-empty value. -/
def carriesPseudoHeaders (headers : Headers) : Prop :=
  ∃ s, headers ":scheme" = some s ∧ s ≠ ""

/-- The JSON response value `{ status: 'ok', data: response_body }`: a record
with exactly the two keys `status` and `data`. -/
structure ResponseBody where
  status : String
  data : String
deriving DecidableEq

/-- Everything one run of the `POST /` handler produces: the line written to
`console.log`, the HTTP status (fastify replies 200 by default when an async
handler returns a value without setting a code) and the serialized body. -/
structure HandlerResult where
  logLine : String
  statusCode : Nat
  body : ResponseBody
deriving DecidableEq

/-- The `http11Server.post('/')` handler: read `my_id` with fallback,
classify the protocol from `:scheme`, log
`` `${formatTimestamp()} ${myId} arrived (${protocol})` ``, generate a fresh
300 KB payload from this request's own random stream, and return
`{ status: 'ok', data: response_body }`. -/
def handlePost (headers : Headers) (now : DateTime) (stream : ByteStream) :
    HandlerResult :=
  let myId := myIdOf headers
  let protocol := protocolOf headers
  let logLine := formatTimestamp now ++ " " ++ myId ++ " arrived (" ++ protocol ++ ")"
  let response_body := generateRandomString stream 300
  { logLine := logLine
    statusCode := 200
    body := { status := "ok", data := String.mk response_body } }

/-- The options object passed to `fastify(...)` when creating
`http11Server`. -/
structure FastifyOptions where
  http2 : Bool
  logger : Bool
deriving DecidableEq

/-- `fastify({ http2: false, logger: false })` from `server.js`. -/
def http11ServerOptions : FastifyOptions :=
  { http2 := false, logger := false }

/-- Whether the created server speaks cleartext HTTP/2 (h2c): fastify serves
HTTP/2 on a plain TCP socket exactly when its `http2` option is true. -/
def supportsH2c : Bool := http11ServerOptions.http2

/-- The options object passed to `http11Server.listen(...)`. -/
structure ListenOptions where
  port : Nat
  host : String
deriving DecidableEq

/-- `listen({ port: 24420, host: '0.0.0.0' })` from `server.js`. -/
def listenOptions : ListenOptions :=
  { port := 24420, host := "0.0.0.0" }

/-- The observable outcome of the `start` bootstrap. -/
structure StartResult where
  stdoutMsg : Option String
  stderrErr : Option String
  exitCode : Option Nat
deriving DecidableEq

/-- `start` from `server.js`, as a function of the outcome of
`http11Server.listen`: on success print the startup banner; on failure
`console.error(err)` and `process.exit(1)`. -/
def start (listenResult : Except String Unit) : StartResult :=
  match listenResult with
  | Except.ok _ =>
      { stdoutMsg := some "HTTP server (HTTP/1.1) is running on port 24420"
        stderrErr := none
        exitCode := none }
  | Except.error err =>
      { stdoutMsg := none
        stderrErr := some err
        exitCode := some 1 }

/-- Modelled from the claim's wording: the "retained prefix" of a request's
random byte stream — the bytes whose base64 encoding survives the handler's
truncation to 307200 characters.  307200 = 224·1368 + 768, so chunks 0–223
are encoded in full and the first 768 retained characters of chunk 224
encode its first 576 bytes (768 = 4·192, 576 = 3·192). -/
def retainedBytes (stream : ByteStream) : List Byte :=
  ((List.range 224).map (fun i => (stream i).val)).flatten
    ++ (stream 224).val.take 576

/-- An all-zero random stream, used to instantiate universally quantified
theorems at a concrete input. -/
def zeroStream : ByteStream :=
  fun _ => ⟨List.replicate 1024 0, List.length_replicate 1024 0⟩

/-- An all-ones random stream, differing from `zeroStream` in every byte. -/
def oneStream : ByteStream :=
  fun _ => ⟨List.replicate 1024 1, List.length_replicate 1024 1⟩

/-- A concrete header map: no headers at all. -/
def noHeaders : Headers := fun _ => none

/-- A concrete header map carrying `my_id: abc123` and nothing else. -/
def abcHeaders : Headers :=
  fun k => if k = "my_id" then some "abc123" else none

/-- A concrete header map carrying `my_id` with an empty value. -/
def emptyIdHeaders : Headers :=
  fun k => if k = "my_id" then some "" else none

/-- A concrete header map as an h2c request would carry: `:scheme: http`. -/
def h2cHeaders : Headers :=
  fun k => if k = ":scheme" then some "http" else none

/-- A concrete timestamp: 13:05:07.042. -/
def sampleTime : DateTime :=
  { hours := 13, minutes := 5, seconds := 7, milliseconds := 42 }

theorem base64Encode_length (l : List Byte) :
    (base64Encode l).length = 4 * ((l.length + 2) / 3) := by
  induction l using base64Encode.induct with
  | case1 => simp [base64Encode]
  | case2 a => simp [base64Encode]
  | case3 a b => simp [base64Encode]
  | case4 a b c rest ih =>
      simp only [base64Encode, List.length_cons, ih]
      omega

theorem base64Encode_chunk_length (c : Chunk) :
    (base64Encode c.val).length = 1368 := by
  rw [base64Encode_length, c.property]

theorem generateRandomStringLoop_eq (stream : ByteStream) (t : Int)
    (i : Nat) (acc : List Char) :
    generateRandomStringLoop stream t i acc =
      acc ++ ((List.range' i (numChunks (t - acc.length))).map
        (fun j => base64Encode (stream j).val)).flatten := by
  induction i, acc using generateRandomStringLoop.induct stream t with
  | case1 i acc hlt ih =>
      rw [generateRandomStringLoop, if_pos hlt, ih]
      have hlen : (acc ++ base64Encode (stream i).val).length
          = acc.length + 1368 := by
        simp [base64Encode_chunk_length]
      have hnum : numChunks (t - acc.length)
          = numChunks (t - (acc ++ base64Encode (stream i).val).length) + 1 := by
        rw [hlen]
        unfold numChunks
        omega
      rw [hnum, List.range'_succ, List.map_cons, List.flatten_cons,
        List.append_assoc]
  | case2 i acc hge =>
      have hnum : numChunks (t - acc.length) = 0 := by
        unfold numChunks
        omega
      rw [generateRandomStringLoop, if_neg hge, hnum]
      simp

theorem generateRandomStringLoop_length (stream : ByteStream) (t : Int) :
    (generateRandomStringLoop stream t 0 []).length = 1368 * numChunks t := by
  rw [generateRandomStringLoop_eq]
  simp only [List.nil_append, List.length_flatten, List.map_map]
  have h : ((List.range' 0 (numChunks (t - ([] : List Char).length))).map
      (List.length ∘ fun j => base64Encode (stream j).val))
      = List.replicate (numChunks t) 1368 := by
    apply List.eq_replicate_iff.mpr
    constructor
    · simp
    · intro b hb
      simp only [List.mem_map] at hb
      obtain ⟨j, _, hj⟩ := hb
      rw [← hj]
      simp [base64Encode_chunk_length]
  rw [h, List.sum_replicate, smul_eq_mul]
  omega

theorem numChunks_ge (t : Int) : t ≤ 1368 * numChunks t := by
  unfold numChunks
  omega

theorem numChunks_min (t : Int) (h : 0 < numChunks t) :
    (1368 : Int) * (numChunks t - 1 : Nat) < t := by
  unfold numChunks at *
  omega

theorem pad2_spec : ∀ n < 100,
    (padStart (jsNatToString n) 2 '0').data.length = 2
    ∧ (∀ c ∈ (padStart (jsNatToString n) 2 '0').data, c.isDigit)
    ∧ decodeDigits (padStart (jsNatToString n) 2 '0').data = n := by
  decide

set_option maxHeartbeats 1000000 in
set_option maxRecDepth 10000 in
theorem pad6_spec : ∀ n < 1000,
    (padStart (jsNatToString n) 6 '0').data.length = 6
    ∧ (∀ c ∈ (padStart (jsNatToString n) 6 '0').data, c.isDigit)
    ∧ decodeDigits (padStart (jsNatToString n) 6 '0').data = n := by
  decide

theorem b64Char_inj : ∀ x < 64, ∀ y < 64, b64Char x = b64Char y → x = y := by
  decide

theorem base64Encode_inj (l : List Byte) :
    ∀ m : List Byte, l.length = m.length → base64Encode l = base64Encode m →
      l = m := by
  induction l using base64Encode.induct with
  | case1 =>
      intro m hlen _
      exact (List.length_eq_zero.mp hlen.symm).symm
  | case2 a =>
      intro m hlen henc
      rcases m with - | ⟨a', m'⟩
      · simp at hlen
      rcases m' with - | ⟨b', m''⟩
      · simp only [base64Encode, List.cons.injEq, and_true] at henc
        have ha := a.isLt
        have ha' := a'.isLt
        have e1 := b64Char_inj _ (by omega) _ (by omega) henc.1
        have e2 := b64Char_inj _ (by omega) _ (by omega) henc.2
        have : a = a' := Fin.ext (by omega)
        rw [this]
      · simp at hlen
  | case3 a b =>
      intro m hlen henc
      rcases m with - | ⟨a', m'⟩
      · simp at hlen
      rcases m' with - | ⟨b', m''⟩
      · simp at hlen
      rcases m'' with - | ⟨c', m3⟩
      · simp only [base64Encode, List.cons.injEq, and_true] at henc
        have ha := a.isLt
        have ha' := a'.isLt
        have hb := b.isLt
        have hb' := b'.isLt
        have e1 := b64Char_inj _ (by omega) _ (by omega) henc.1
        have e2 := b64Char_inj _ (by omega) _ (by omega) henc.2.1
        have e3 := b64Char_inj _ (by omega) _ (by omega) henc.2.2
        have h1 : a = a' := Fin.ext (by omega)
        have h2 : b = b' := Fin.ext (by omega)
        rw [h1, h2]
      · simp at hlen
  | case4 a b c rest ih =>
      intro m hlen henc
      rcases m with - | ⟨a', m'⟩
      · simp at hlen
      rcases m' with - | ⟨b', m''⟩
      · simp at hlen
      rcases m'' with - | ⟨c', m3⟩
      · simp at hlen
      simp only [base64Encode, List.cons.injEq] at henc
      obtain ⟨e1, e2, e3, e4, etail⟩ := henc
      have ha := a.isLt
      have ha' := a'.isLt
      have hb := b.isLt
      have hb' := b'.isLt
      have hc := c.isLt
      have hc' := c'.isLt
      have v1 := b64Char_inj _ (by omega) _ (by omega) e1
      have v2 := b64Char_inj _ (by omega) _ (by omega) e2
      have v3 := b64Char_inj _ (by omega) _ (by omega) e3
      have v4 := b64Char_inj _ (by omega) _ (by omega) e4
      have h1 : a = a' := Fin.ext (by omega)
      have h2 : b = b' := Fin.ext (by omega)
      have h3 : c = c' := Fin.ext (by omega)
      have h4 : rest = m3 := by
        apply ih m3 _ etail
        simp at hlen
        omega
      rw [h1, h2, h3, h4]

theorem base64Encode_append (l m : List Byte) :
    l.length % 3 = 0 →
      base64Encode (l ++ m) = base64Encode l ++ base64Encode m := by
  induction l using base64Encode.induct with
  | case1 =>
      intro _
      simp [base64Encode]
  | case2 a =>
      intro h
      simp at h
  | case3 a b =>
      intro h
      simp at h
  | case4 a b c rest ih =>
      intro h
      have hr : rest.length % 3 = 0 := by
        simp at h
        omega
      have hm : rest.append m = rest ++ m := rfl
      simp only [List.cons_append, base64Encode, hm, ih hr]

theorem flatten_enc_length (s : ByteStream) (n : Nat) :
    (((List.range n).map (fun i => base64Encode (s i).val)).flatten).length
      = 1368 * n := by
  induction n with
  | zero => simp
  | succ n ih =>
      rw [List.range_succ, List.map_append, List.flatten_append]
      simp only [List.length_append, ih, List.map_cons, List.map_nil,
        List.flatten_cons, List.flatten_nil, List.append_nil,
        base64Encode_chunk_length]
      omega

theorem flatten_enc_inj (s1 s2 : ByteStream) (n : Nat)
    (h : ((List.range n).map (fun i => base64Encode (s1 i).val)).flatten
        = ((List.range n).map (fun i => base64Encode (s2 i).val)).flatten) :
    ∀ i < n, (s1 i).val = (s2 i).val := by
  induction n with
  | zero =>
      intro i hi
      omega
  | succ n ih =>
      rw [List.range_succ, List.map_append, List.flatten_append,
        List.map_append, List.flatten_append] at h
      simp only [List.map_cons, List.map_nil, List.flatten_cons,
        List.flatten_nil, List.append_nil] at h
      obtain ⟨hF, hE⟩ := List.append_inj h
        (by rw [flatten_enc_length, flatten_enc_length])
      intro i hi
      rcases Nat.lt_succ_iff_lt_or_eq.mp hi with hlt | heq
      · exact ih hF i hlt
      · subst heq
        exact base64Encode_inj _ _
          (by rw [(s1 i).property, (s2 i).property]) hE

theorem randomString300_decomp (s : ByteStream) :
    generateRandomString s 300
      = ((List.range 224).map (fun i => base64Encode (s i).val)).flatten
        ++ base64Encode ((s 224).val.take 576) := by
  show (generateRandomStringLoop s (300 * 1024) 0 []).take
      ((300 : Int) * 1024).toNat = _
  rw [generateRandomStringLoop_eq]
  have h225 : numChunks ((300 : Int) * 1024 - (([] : List Char).length : Int))
      = 225 := by
    simp only [List.length_nil, Nat.cast_zero, sub_zero]
    decide
  rw [h225, List.nil_append, ← List.range_eq_range']
  rw [show (225 : Nat) = 224 + 1 from rfl, List.range_succ]
  rw [List.map_append, List.flatten_append]
  simp only [List.map_cons, List.map_nil, List.flatten_cons, List.flatten_nil,
    List.append_nil]
  rw [List.take_append_eq_append_take]
  rw [List.take_of_length_le (by rw [flatten_enc_length]; decide)]
  rw [flatten_enc_length]
  have h768 : ((300 : Int) * 1024).toNat - 1368 * 224 = 768 := by decide
  rw [h768]
  congr 1
  have hlen576 : ((s 224).val.take 576).length = 576 := by
    rw [List.length_take, (s 224).property]
    omega
  conv_lhs => rw [← List.take_append_drop 576 (s 224).val]
  rw [base64Encode_append _ _ (by rw [hlen576])]
  apply List.take_left'
  rw [base64Encode_length, hlen576]

theorem retainedBytes_head (s : ByteStream) :
    (retainedBytes s).head? = (s 0).val.head? := by
  unfold retainedBytes
  have h224 : List.range 224 = 0 :: (List.range 223).map Nat.succ := by
    rw [show (224 : Nat) = 223 + 1 from rfl]
    exact List.range_succ_eq_map 223
  rw [h224]
  simp only [List.map_cons, List.flatten_cons, List.append_assoc]
  obtain ⟨a, t, hat⟩ := List.exists_cons_of_ne_nil
    (show (s 0).val ≠ [] by
      intro hnil
      have hp := (s 0).property
      rw [hnil] at hp
      simp at hp)
  rw [hat]
  simp

theorem generateRandomString_length (stream : ByteStream) (sizeInKB : Int)
    (h : 0 ≤ sizeInKB) :
    (generateRandomString stream sizeInKB).length = (sizeInKB * 1024).toNat := by
  unfold generateRandomString
  rw [List.length_take, generateRandomStringLoop_length]
  have h1 := numChunks_ge (sizeInKB * 1024)
  omega

/-- C1: `generateRandomString`, given a nonnegative target size in KiB,
returns a string of exactly `size*1024` characters, and consequently the
`data` field of every `POST /` response has exactly 307200 characters,
regardless of header content. -/
theorem c1_generateRandomString_length (stream : ByteStream) (sizeInKB : Int)
    (h : 0 ≤ sizeInKB) :
    (generateRandomString stream sizeInKB).length = (sizeInKB * 1024).toNat
    ∧ ∀ (headers : Headers) (now : DateTime),
        ((handlePost headers now stream).body.data).length = 307200 := by
  refine ⟨generateRandomString_length stream sizeInKB h, ?_⟩
  intro headers now
  have h300 := generateRandomString_length stream 300 (by decide)
  show (String.mk (generateRandomString stream 300)).length = 307200
  rw [show (String.mk (generateRandomString stream 300)).length
    = (generateRandomString stream 300).length from rfl, h300]
  decide

/-- C1 witness: at size 300 the payload has exactly 307200 characters, and a
concrete request's `data` field does too. -/
theorem c1_generateRandomString_length_witness :
    (generateRandomString zeroStream 300).length = 307200
    ∧ ((handlePost noHeaders sampleTime zeroStream).body.data).length
        = 307200 := by
  have h := c1_generateRandomString_length zeroStream 300 (by decide)
  exact ⟨by simpa using h.1, h.2 noHeaders sampleTime⟩

/-- C2: `generateRandomString` computes its result by appending
base64-encoded 1024-byte random draws to an accumulator until the length
reaches or exceeds `size*1024`, then truncating to exactly that target:
its value is the truncated concatenation of the first `numChunks` encoded
chunks, where `numChunks` is the least chunk count whose total encoded
length reaches the target (witnessed by the two bound conjuncts). -/
theorem c2_generateRandomString_algorithm (stream : ByteStream) (sizeInKB : Int) :
    generateRandomString stream sizeInKB =
      (((List.range (numChunks (sizeInKB * 1024))).map
        (fun j => base64Encode (stream j).val)).flatten).take (sizeInKB * 1024).toNat
    ∧ sizeInKB * 1024 ≤ 1368 * (numChunks (sizeInKB * 1024) : Int)
    ∧ (0 < numChunks (sizeInKB * 1024) →
        (1368 : Int) * (numChunks (sizeInKB * 1024) - 1 : Nat) < sizeInKB * 1024) := by
  refine ⟨?_, numChunks_ge _, numChunks_min _⟩
  show (generateRandomStringLoop stream (sizeInKB * 1024) 0 []).take
      (sizeInKB * 1024).toNat = _
  rw [generateRandomStringLoop_eq]
  simp [List.range_eq_range']

/-- C2 witness: for a 1 KiB target the loop runs exactly once (one 1368-char
chunk already reaches 1024), and the bounds hold there. -/
theorem c2_generateRandomString_algorithm_witness :
    generateRandomString zeroStream 1 =
      (((List.range (numChunks ((1 : Int) * 1024))).map
        (fun j => base64Encode (zeroStream j).val)).flatten).take ((1 : Int) * 1024).toNat
    ∧ (1368 : Int) * (numChunks ((1 : Int) * 1024) - 1 : Nat) < (1 : Int) * 1024 := by
  refine ⟨(c2_generateRandomString_algorithm zeroStream 1).1, ?_⟩
  exact (c2_generateRandomString_algorithm zeroStream 1).2.2 (by decide)

/-- C3: the listener binds plain TCP port 24420 on all interfaces
(`0.0.0.0`) — but, contrary to the claim and to the source's own comments
(`h2c 지원`, "HTTP/1.1 및 h2c server"), the fastify instance is created with
`http2: false`, so the server does not speak cleartext HTTP/2 on that port. -/
theorem c3_listen_config :
    listenOptions.port = 24420 ∧ listenOptions.host = "0.0.0.0"
    ∧ supportsH2c = false := by
  refine ⟨rfl, rfl, rfl⟩

/-- C4 counterexample: a request whose `my_id` header is present with the
empty value.  The claim says the identifier is then the header's value
(`""`), but `headers['my_id'] || 'unknown'` treats the empty string as falsy
and the handler logs `unknown` instead. -/
theorem c4_counterexample :
    emptyIdHeaders "my_id" = some "" ∧ myIdOf emptyIdHeaders = "unknown"
    ∧ myIdOf emptyIdHeaders ≠ "" := by
  refine ⟨rfl, rfl, by decide⟩

/-- C4 (amended): the caller identifier is the `my_id` header value when the
header is present with a non-empty value, and the literal `"unknown"` when
the header is absent or empty; the identifier appears in the emitted log
line. -/
theorem c4_caller_identifier (headers : Headers) (now : DateTime)
    (stream : ByteStream) :
    (headers "my_id" = none → myIdOf headers = "unknown")
    ∧ (headers "my_id" = some "" → myIdOf headers = "unknown")
    ∧ (∀ v, headers "my_id" = some v → v ≠ "" → myIdOf headers = v)
    ∧ ∃ p q, (handlePost headers now stream).logLine
        = p ++ myIdOf headers ++ q := by
  refine ⟨?_, ?_, ?_, ?_⟩
  · intro h
    simp [myIdOf, jsOrDefault, h]
  · intro h
    simp [myIdOf, jsOrDefault, h]
  · intro v h hv
    simp [myIdOf, jsOrDefault, h, hv]
  · refine ⟨formatTimestamp now ++ " ",
      " arrived (" ++ protocolOf headers ++ ")", ?_⟩
    show formatTimestamp now ++ " " ++ myIdOf headers ++ " arrived ("
        ++ protocolOf headers ++ ")" = _
    apply String.ext
    simp [String.data_append]

/-- C4 witness: with no headers the identifier is `"unknown"`; with
`my_id: abc123` it is `"abc123"`. -/
theorem c4_caller_identifier_witness :
    myIdOf noHeaders = "unknown" ∧ myIdOf abcHeaders = "abc123" := by
  refine ⟨(c4_caller_identifier noHeaders sampleTime zeroStream).1 rfl, ?_⟩
  exact (c4_caller_identifier abcHeaders sampleTime zeroStream).2.2.1
    "abc123" rfl (by decide)

/-- C5: the display protocol label is `"HTTP/2"` exactly when the request
carries HTTP/2-style pseudo-headers (a `:scheme` pseudo-header with its
mandatory non-empty value), and `"HTTP/1.1"` otherwise; the log line contains
the label in parentheses. -/
theorem c5_protocol_label (headers : Headers) (now : DateTime)
    (stream : ByteStream) :
    (carriesPseudoHeaders headers → protocolOf headers = "HTTP/2")
    ∧ (¬ carriesPseudoHeaders headers → protocolOf headers = "HTTP/1.1")
    ∧ ∃ p, (handlePost headers now stream).logLine
        = p ++ "(" ++ protocolOf headers ++ ")" := by
  have hiff : jsTruthy (headers ":scheme") = true ↔ carriesPseudoHeaders headers := by
    unfold jsTruthy carriesPseudoHeaders
    cases h : headers ":scheme" with
    | none => simp
    | some s => simp [h]
  refine ⟨?_, ?_, ?_⟩
  · intro h
    simp [protocolOf, hiff.mpr h]
  · intro h
    have hb : jsTruthy (headers ":scheme") = false := by
      cases hb : jsTruthy (headers ":scheme") with
      | false => rfl
      | true => exact absurd (hiff.mp hb) h
    simp [protocolOf, hb]
  · refine ⟨formatTimestamp now ++ " " ++ myIdOf headers ++ " arrived ", ?_⟩
    show formatTimestamp now ++ " " ++ myIdOf headers ++ " arrived ("
        ++ protocolOf headers ++ ")" = _
    apply String.ext
    simp [String.data_append]

/-- C5 witness: an h2c request (`:scheme: http`) is labelled `HTTP/2`; a
request with no pseudo-headers is labelled `HTTP/1.1`. -/
theorem c5_protocol_label_witness :
    protocolOf h2cHeaders = "HTTP/2" ∧ protocolOf noHeaders = "HTTP/1.1" := by
  constructor
  · exact (c5_protocol_label h2cHeaders sampleTime zeroStream).1
      ⟨"http", rfl, by decide⟩
  · refine (c5_protocol_label noHeaders sampleTime zeroStream).2.1 ?_
    rintro ⟨s, hs, -⟩
    exact Option.noConfusion hs

/-- C6: `formatTimestamp` produces `[HH:MM:SS.ssssss]` — hours, minutes and
seconds zero-padded to two digits, and the sub-second field the millisecond
value (0–999) zero-padded to six digits (so it decodes back to the
millisecond count, not a microsecond count) — and the handler's log line is
this timestamp followed by the identifier, `arrived`, and the protocol label
in parentheses. -/
theorem c6_formatTimestamp_format (t : DateTime) (hh : t.hours < 24)
    (hm : t.minutes < 60) (hs : t.seconds < 60) (hms : t.milliseconds < 1000) :
    ∃ H M S MS : List Char,
      (formatTimestamp t).data
        = '[' :: (H ++ ':' :: (M ++ ':' :: (S ++ '.' :: (MS ++ [']']))))
      ∧ H.length = 2 ∧ M.length = 2 ∧ S.length = 2 ∧ MS.length = 6
      ∧ (∀ c ∈ H ++ M ++ S ++ MS, c.isDigit)
      ∧ decodeDigits H = t.hours ∧ decodeDigits M = t.minutes
      ∧ decodeDigits S = t.seconds ∧ decodeDigits MS = t.milliseconds
      ∧ ∀ (headers : Headers) (stream : ByteStream),
          (handlePost headers t stream).logLine
            = formatTimestamp t ++ " " ++ myIdOf headers ++ " arrived ("
              ++ protocolOf headers ++ ")" := by
  obtain ⟨hl2, hd2, hv2⟩ := pad2_spec t.hours (by omega)
  obtain ⟨ml2, md2, mv2⟩ := pad2_spec t.minutes (by omega)
  obtain ⟨sl2, sd2, sv2⟩ := pad2_spec t.seconds (by omega)
  obtain ⟨msl6, msd6, msv6⟩ := pad6_spec t.milliseconds (by omega)
  refine ⟨(padStart (jsNatToString t.hours) 2 '0').data,
    (padStart (jsNatToString t.minutes) 2 '0').data,
    (padStart (jsNatToString t.seconds) 2 '0').data,
    (padStart (jsNatToString t.milliseconds) 6 '0').data,
    ?_, hl2, ml2, sl2, msl6, ?_, hv2, mv2, sv2, msv6, ?_⟩
  · show ("[" ++ padStart (jsNatToString t.hours) 2 '0' ++ ":"
      ++ padStart (jsNatToString t.minutes) 2 '0' ++ ":"
      ++ padStart (jsNatToString t.seconds) 2 '0' ++ "."
      ++ padStart (jsNatToString t.milliseconds) 6 '0' ++ "]").data = _
    simp [String.data_append]
  · intro c hc
    simp only [List.mem_append] at hc
    rcases hc with ((hc | hc) | hc) | hc
    · exact hd2 c hc
    · exact md2 c hc
    · exact sd2 c hc
    · exact msd6 c hc
  · intro headers stream
    rfl

/-- C6 witness: at 13:05:07.042 the format fields exist with the stated
widths and decode back to 13, 5, 7 and 42. -/
theorem c6_formatTimestamp_format_witness :
    ∃ H M S MS : List Char,
      (formatTimestamp sampleTime).data
        = '[' :: (H ++ ':' :: (M ++ ':' :: (S ++ '.' :: (MS ++ [']']))))
      ∧ H.length = 2 ∧ M.length = 2 ∧ S.length = 2 ∧ MS.length = 6
      ∧ (∀ c ∈ H ++ M ++ S ++ MS, c.isDigit)
      ∧ decodeDigits H = sampleTime.hours ∧ decodeDigits M = sampleTime.minutes
      ∧ decodeDigits S = sampleTime.seconds
      ∧ decodeDigits MS = sampleTime.milliseconds
      ∧ ∀ (headers : Headers) (stream : ByteStream),
          (handlePost headers sampleTime stream).logLine
            = formatTimestamp sampleTime ++ " " ++ myIdOf headers
              ++ " arrived (" ++ protocolOf headers ++ ")" :=
  c6_formatTimestamp_format sampleTime (by decide) (by decide) (by decide)
    (by decide)

/-- C7: every `POST /` handler run returns status 200 and a body record with
exactly the keys `status` and `data`, with `status = "ok"`; the handler is a
total function of its inputs (no error branch). -/
theorem c7_response_shape (headers : Headers) (now : DateTime)
    (stream : ByteStream) :
    (handlePost headers now stream).statusCode = 200
    ∧ (handlePost headers now stream).body.status = "ok"
    ∧ ∃ d, (handlePost headers now stream).body = ResponseBody.mk "ok" d := by
  exact ⟨rfl, rfl, ⟨String.mk (generateRandomString stream 300), rfl⟩⟩

/-- C8: when binding the listener fails, `start` logs the error to standard
error and exits with code 1; when it succeeds, it does not exit and prints
the startup banner. -/
theorem c8_start_behavior (err : String) :
    start (Except.error err)
      = { stdoutMsg := none, stderrErr := some err, exitCode := some 1 }
    ∧ start (Except.ok ())
      = { stdoutMsg := some "HTTP server (HTTP/1.1) is running on port 24420"
          stderrErr := none, exitCode := none } := by
  exact ⟨rfl, rfl⟩

/-- C10: the accumulation loop of `generateRandomString` terminates for
every size: each iteration appends exactly 1368 characters (the base64
encoding of 1024 bytes), for a nonpositive size the loop body never runs and
the empty string is returned, and the loop stops after exactly `numChunks`
iterations with length `1368 * numChunks`, which reaches the byte target. -/
theorem c10_loop_termination (stream : ByteStream) (sizeInKB : Int) :
    (∀ i, (base64Encode (stream i).val).length = 1368)
    ∧ (∀ (t : Int) (i : Nat) (acc : List Char), (acc.length : Int) < t →
        generateRandomStringLoop stream t i acc
          = generateRandomStringLoop stream t (i + 1)
              (acc ++ base64Encode (stream i).val)
        ∧ (acc ++ base64Encode (stream i).val).length = acc.length + 1368)
    ∧ (sizeInKB ≤ 0 →
        generateRandomStringLoop stream (sizeInKB * 1024) 0 [] = []
        ∧ generateRandomString stream sizeInKB = [])
    ∧ (generateRandomStringLoop stream (sizeInKB * 1024) 0 []).length
        = 1368 * numChunks (sizeInKB * 1024)
    ∧ sizeInKB * 1024 ≤ 1368 * (numChunks (sizeInKB * 1024) : Int) := by
  refine ⟨fun i => base64Encode_chunk_length (stream i), ?_, ?_,
    generateRandomStringLoop_length stream _, numChunks_ge _⟩
  · intro t i acc hlt
    constructor
    · rw [generateRandomStringLoop, if_pos hlt]
    · simp [base64Encode_chunk_length]
  · intro hle
    have hempty : generateRandomStringLoop stream (sizeInKB * 1024) 0 [] = [] := by
      rw [generateRandomStringLoop, if_neg]
      simp only [List.length_nil, Nat.cast_zero, not_lt]
      omega
    refine ⟨hempty, ?_⟩
    show (generateRandomStringLoop stream (sizeInKB * 1024) 0 []).take
        (sizeInKB * 1024).toNat = []
    rw [hempty]
    simp

/-- C10 witness: one chunk encodes to 1368 characters; the first iteration
on an empty accumulator towards a 1024-byte target grows it to 1368; at size
`-1` the loop never runs and the result is empty. -/
theorem c10_loop_termination_witness :
    (base64Encode (zeroStream 0).val).length = 1368
    ∧ (([] : List Char) ++ base64Encode (zeroStream 0).val).length = 0 + 1368
    ∧ generateRandomString zeroStream (-1) = [] := by
  refine ⟨(c10_loop_termination zeroStream (-1)).1 0, ?_, ?_⟩
  · exact ((c10_loop_termination zeroStream (-1)).2.1 1024 0 [] (by decide)).2
  · exact ((c10_loop_termination zeroStream (-1)).2.2.1 (by decide)).2

/-- C9: each request's `data` is a fresh invocation of the generator on that
request's own random stream (second conjunct), and two handler runs whose
random byte streams differ in the retained prefix (the bytes whose encoding
survives truncation to 307200 characters) produce different `data` values
(first conjunct). -/
theorem c9_data_freshness (s1 s2 : ByteStream) (h1 h2 : Headers)
    (t1 t2 : DateTime) (hne : retainedBytes s1 ≠ retainedBytes s2) :
    (handlePost h1 t1 s1).body.data ≠ (handlePost h2 t2 s2).body.data
    ∧ (handlePost h1 t1 s1).body.data
        = String.mk (generateRandomString s1 300) := by
  refine ⟨?_, rfl⟩
  intro heq
  apply hne
  have hout : generateRandomString s1 300 = generateRandomString s2 300 := by
    have hd := congrArg String.data heq
    exact hd
  rw [randomString300_decomp, randomString300_decomp] at hout
  obtain ⟨hF, hE⟩ := List.append_inj hout
    (by rw [flatten_enc_length, flatten_enc_length])
  have hchunks := flatten_enc_inj s1 s2 224 hF
  have htake : (s1 224).val.take 576 = (s2 224).val.take 576 := by
    apply base64Encode_inj _ _ _ hE
    rw [List.length_take, List.length_take, (s1 224).property,
      (s2 224).property]
  unfold retainedBytes
  rw [htake]
  congr 1
  congr 1
  apply List.map_congr_left
  intro i hi
  exact hchunks i (List.mem_range.mp hi)

/-- C9 witness: two runs whose streams are all-zero and all-one bytes
(differing already in the first retained byte) return different payloads. -/
theorem c9_data_freshness_witness :
    (handlePost noHeaders sampleTime zeroStream).body.data
      ≠ (handlePost noHeaders sampleTime oneStream).body.data := by
  refine (c9_data_freshness zeroStream oneStream noHeaders noHeaders
    sampleTime sampleTime ?_).1
  intro h
  have hhead : ((zeroStream 0).val).head? = ((oneStream 0).val).head? := by
    rw [← retainedBytes_head, h, retainedBytes_head]
  have hz : ((zeroStream 0).val).head? = some 0 := by
    show (List.replicate 1024 (0 : Byte)).head? = some 0
    rw [show (1024 : Nat) = 1023 + 1 from rfl, List.replicate_succ]
    rfl
  have ho : ((oneStream 0).val).head? = some 1 := by
    show (List.replicate 1024 (1 : Byte)).head? = some 1
    rw [show (1024 : Nat) = 1023 + 1 from rfl, List.replicate_succ]
    rfl
  rw [hz, ho] at hhead
  simp at hhead

end TestServer
